import Mathlib

/-!
Verification of `gunrock/util/io/scatter_tile.cuh` (the `ScatterTile` kernel
utility of the Gunrock GPU graph library).

The source is a compile-time-specialized CUDA struct that scatters a tile of
per-lane register values to a destination buffer.  We embed one lane's
execution of a `Scatter` call as a pure state transformer over a `Tile`
record holding the lane-local `data` array, the shared destination buffer
`dest`, and the ordered trace of store events issued (`writes`).  The
template-recursion of `ScatterTile::Iterate` (vec index advancing fastest,
rolling over to the next load, terminating at `LOADS_PER_TILE`) is embedded
as well-founded recursion on the pair `(LOADS_PER_TILE - LOAD,
LOAD_VEC_SIZE - VEC)`.  Machine integers are modelled as `Nat`: all the
quantities involved (indices, offsets, the runtime partial tile size) are
non-negative in every reachable instantiation.
-/

set_option linter.unusedVariables false

namespace Gunrock

/-- The compile-time template parameters of `ScatterTile`
(`LOG_LOADS_PER_TILE`, `LOG_LOAD_VEC_SIZE`, `ACTIVE_THREADS`; the cache
modifier parameter does not affect values and is omitted). -/
structure Cfg where
  LOG_LOADS_PER_TILE : Nat
  LOG_LOAD_VEC_SIZE : Nat
  ACTIVE_THREADS : Nat

/-- `LOADS_PER_TILE = 1 << LOG_LOADS_PER_TILE` (source enum). -/
def Cfg.LOADS_PER_TILE (c : Cfg) : Nat := 1 <<< c.LOG_LOADS_PER_TILE

/-- `LOAD_VEC_SIZE = 1 << LOG_LOAD_VEC_SIZE` (source enum). -/
def Cfg.LOAD_VEC_SIZE (c : Cfg) : Nat := 1 <<< c.LOG_LOAD_VEC_SIZE

/-- `LOG_ELEMENTS_PER_THREAD = LOG_LOADS_PER_TILE + LOG_LOAD_VEC_SIZE` (source enum). -/
def Cfg.LOG_ELEMENTS_PER_THREAD (c : Cfg) : Nat :=
  c.LOG_LOADS_PER_TILE + c.LOG_LOAD_VEC_SIZE

/-- `ELEMENTS_PER_THREAD = 1 << LOG_ELEMENTS_PER_THREAD` (source enum). -/
def Cfg.ELEMENTS_PER_THREAD (c : Cfg) : Nat := 1 <<< c.LOG_ELEMENTS_PER_THREAD

/-- `TILE_SIZE = ACTIVE_THREADS * ELEMENTS_PER_THREAD` (source enum). -/
def Cfg.TILE_SIZE (c : Cfg) : Nat := c.ACTIVE_THREADS * c.ELEMENTS_PER_THREAD

/-- Modelled from the spec: the Memory Write Primitive
`ModifiedStore<CACHE_MODIFIER>::St(val, ptr)` lives in
`gunrock/util/io/modified_store.cuh`, which is not part of the sources at
hand.  Per the spec's external-leaf contract it performs exactly one write
of the value to the destination address; the cache/consistency hint affects
caching behavior only, never the stored value, so the buffer is updated
pointwise at `ptr`. -/
def ModifiedStore.St {T : Type} (val : T) (buf : Nat → T) (ptr : Nat) : Nat → T :=
  fun a => if a = ptr then val else buf a

/-- Modelled from the spec: `Operators<T>::NopTransform` (from
`gunrock/util/operators.cuh`, not part of the sources at hand) is the
identity transform used by the transform-absent `Scatter` call shapes. -/
def NopTransform {T : Type} (x : T) : T := x

/-- The state one lane's `Scatter` call operates on: the lane-local value
array `data[load][vec]`, the shared destination buffer `dest` (indexed at
element granularity, address `off` standing for the C pointer
`dest + off`), and the ordered trace of store events `(address, value)`
issued so far — instrumentation recording each `ModifiedStore::St` call,
used to state which elements get written. -/
@[ext]
structure Tile (T : Type) where
  data : Nat → Nat → T
  dest : Nat → T
  writes : List (Nat × T)

/-- The store body shared by all four `Iterate::Invoke` variants:
`Transform(data[LOAD][VEC]); ModifiedStore::St(data[LOAD][VEC],
dest + scatter_offsets[LOAD][VEC]);` — the transform mutates the element in
place and the (possibly transformed) value is stored; the event is appended
to the trace. -/
def storeElement {T : Type} (Transform : T → T) (scatter_offsets : Nat → Nat → Nat)
    (LOAD VEC : Nat) (s : Tile T) : Tile T :=
  let v := Transform (s.data LOAD VEC)
  ⟨fun l w => if l = LOAD ∧ w = VEC then v else s.data l w,
   ModifiedStore.St v s.dest (scatter_offsets LOAD VEC),
   s.writes ++ [(scatter_offsets LOAD VEC, v)]⟩

/-- `Iterate<LOAD, VEC>::Invoke(dest, data, scatter_offsets)` — the
unguarded variant: store every element, advancing `VEC` fastest, rolling
over to `(LOAD+1, 0)` at `VEC = LOAD_VEC_SIZE`, terminating at
`LOAD = LOADS_PER_TILE`. -/
def invokeUnguarded {T : Type} (c : Cfg) (Transform : T → T)
    (scatter_offsets : Nat → Nat → Nat) (LOAD VEC : Nat) (s : Tile T) : Tile T :=
  if c.LOADS_PER_TILE ≤ LOAD then s
  else if c.LOAD_VEC_SIZE ≤ VEC then
    invokeUnguarded c Transform scatter_offsets (LOAD + 1) 0 s
  else
    invokeUnguarded c Transform scatter_offsets LOAD (VEC + 1)
      (storeElement Transform scatter_offsets LOAD VEC s)
termination_by (c.LOADS_PER_TILE - LOAD, c.LOAD_VEC_SIZE - VEC)
decreasing_by
  · apply Prod.Lex.left; omega
  · apply Prod.Lex.right; omega

/-- `Iterate<LOAD, VEC>::Invoke(dest, data, scatter_offsets, valid_flags)`
— the flag-guarded variant: `if (valid_flags[LOAD][VEC]) { ... }`. -/
def invokeByFlags {T : Type} (c : Cfg) (Transform : T → T)
    (scatter_offsets : Nat → Nat → Nat) (valid_flags : Nat → Nat → Bool)
    (LOAD VEC : Nat) (s : Tile T) : Tile T :=
  if c.LOADS_PER_TILE ≤ LOAD then s
  else if c.LOAD_VEC_SIZE ≤ VEC then
    invokeByFlags c Transform scatter_offsets valid_flags (LOAD + 1) 0 s
  else
    invokeByFlags c Transform scatter_offsets valid_flags LOAD (VEC + 1)
      (if valid_flags LOAD VEC then storeElement Transform scatter_offsets LOAD VEC s else s)
termination_by (c.LOADS_PER_TILE - LOAD, c.LOAD_VEC_SIZE - VEC)
decreasing_by
  · apply Prod.Lex.left; omega
  · apply Prod.Lex.right; omega

/-- `Iterate<LOAD, VEC>::Invoke(dest, data, scatter_offsets,
partial_tile_size)` — guarded by partial tile size:
`int tile_rank = (threadIdx.x << LOG_LOAD_VEC_SIZE) +
(LOAD * ACTIVE_THREADS * LOAD_VEC_SIZE) + VEC;
if (tile_rank < partial_tile_size) { ... }`. -/
def invokeBySize {T : Type} (c : Cfg) (threadIdx_x : Nat) (Transform : T → T)
    (scatter_offsets : Nat → Nat → Nat) (partial_tile_size : Nat)
    (LOAD VEC : Nat) (s : Tile T) : Tile T :=
  if c.LOADS_PER_TILE ≤ LOAD then s
  else if c.LOAD_VEC_SIZE ≤ VEC then
    invokeBySize c threadIdx_x Transform scatter_offsets partial_tile_size (LOAD + 1) 0 s
  else
    let tile_rank := (threadIdx_x <<< c.LOG_LOAD_VEC_SIZE) +
      (LOAD * c.ACTIVE_THREADS * c.LOAD_VEC_SIZE) + VEC
    invokeBySize c threadIdx_x Transform scatter_offsets partial_tile_size LOAD (VEC + 1)
      (if tile_rank < partial_tile_size then
        storeElement Transform scatter_offsets LOAD VEC s
      else s)
termination_by (c.LOADS_PER_TILE - LOAD, c.LOAD_VEC_SIZE - VEC)
decreasing_by
  · apply Prod.Lex.left; omega
  · apply Prod.Lex.right; omega

/-- `Iterate<LOAD, VEC>::Invoke(dest, data, scatter_offsets, valid_flags,
partial_tile_size)` — guarded by flags and partial tile size:
`if (valid_flags[LOAD][VEC] && (tile_rank < partial_tile_size)) { ... }`. -/
def invokeByFlagsAndSize {T : Type} (c : Cfg) (threadIdx_x : Nat) (Transform : T → T)
    (scatter_offsets : Nat → Nat → Nat) (valid_flags : Nat → Nat → Bool)
    (partial_tile_size : Nat) (LOAD VEC : Nat) (s : Tile T) : Tile T :=
  if c.LOADS_PER_TILE ≤ LOAD then s
  else if c.LOAD_VEC_SIZE ≤ VEC then
    invokeByFlagsAndSize c threadIdx_x Transform scatter_offsets valid_flags
      partial_tile_size (LOAD + 1) 0 s
  else
    let tile_rank := (threadIdx_x <<< c.LOG_LOAD_VEC_SIZE) +
      (LOAD * c.ACTIVE_THREADS * c.LOAD_VEC_SIZE) + VEC
    invokeByFlagsAndSize c threadIdx_x Transform scatter_offsets valid_flags
      partial_tile_size LOAD (VEC + 1)
      (if valid_flags LOAD VEC ∧ tile_rank < partial_tile_size then
        storeElement Transform scatter_offsets LOAD VEC s
      else s)
termination_by (c.LOADS_PER_TILE - LOAD, c.LOAD_VEC_SIZE - VEC)
decreasing_by
  · apply Prod.Lex.left; omega
  · apply Prod.Lex.right; omega

/-- The generic predicated traversal all four `Invoke` variants instantiate:
same recursion, the write predicated on an arbitrary per-element guard.
Used to state which behavior each variant refines to. -/
def invokeGuarded {T : Type} (c : Cfg) (g : Nat → Nat → Bool) (Transform : T → T)
    (scatter_offsets : Nat → Nat → Nat) (LOAD VEC : Nat) (s : Tile T) : Tile T :=
  if c.LOADS_PER_TILE ≤ LOAD then s
  else if c.LOAD_VEC_SIZE ≤ VEC then
    invokeGuarded c g Transform scatter_offsets (LOAD + 1) 0 s
  else
    invokeGuarded c g Transform scatter_offsets LOAD (VEC + 1)
      (if g LOAD VEC then storeElement Transform scatter_offsets LOAD VEC s else s)
termination_by (c.LOADS_PER_TILE - LOAD, c.LOAD_VEC_SIZE - VEC)
decreasing_by
  · apply Prod.Lex.left; omega
  · apply Prod.Lex.right; omega

/-- The tile rank of an element, as the spec's Tile Geometry states it:
`(lane_index × vector_size) + (load_index × active_lanes × vector_size)
+ vec_index`. -/
def tileRank (c : Cfg) (lane load vec : Nat) : Nat :=
  lane * c.LOAD_VEC_SIZE + load * c.ACTIVE_THREADS * c.LOAD_VEC_SIZE + vec

/-- `ScatterTile::Scatter(dest, data, scatter_offsets, partial_tile_size)`
with an explicit `Transform`: one runtime comparison dispatches to the
size-guarded traversal when `partial_tile_size < TILE_SIZE`, else to the
unguarded one.  (The source defaults `partial_tile_size` to `TILE_SIZE`.) -/
def Scatter {T : Type} (c : Cfg) (threadIdx_x : Nat) (Transform : T → T)
    (scatter_offsets : Nat → Nat → Nat) (partial_tile_size : Nat) (s : Tile T) : Tile T :=
  if partial_tile_size < c.TILE_SIZE then
    invokeBySize c threadIdx_x Transform scatter_offsets partial_tile_size 0 0 s
  else
    invokeUnguarded c Transform scatter_offsets 0 0 s

/-- The transform-absent overload `ScatterTile::Scatter(dest, data,
scatter_offsets, partial_tile_size)`: delegates with
`Operators<T>::NopTransform`. -/
def ScatterNop {T : Type} (c : Cfg) (threadIdx_x : Nat)
    (scatter_offsets : Nat → Nat → Nat) (partial_tile_size : Nat) (s : Tile T) : Tile T :=
  Scatter c threadIdx_x NopTransform scatter_offsets partial_tile_size s

/-- `ScatterTile::Scatter(dest, data, flags, scatter_offsets,
partial_tile_size)` with an explicit `Transform`: dispatches to the
flags-and-size-guarded traversal when `partial_tile_size < TILE_SIZE`, else
to the flag-guarded one. -/
def ScatterFlags {T : Type} (c : Cfg) (threadIdx_x : Nat) (Transform : T → T)
    (valid_flags : Nat → Nat → Bool) (scatter_offsets : Nat → Nat → Nat)
    (partial_tile_size : Nat) (s : Tile T) : Tile T :=
  if partial_tile_size < c.TILE_SIZE then
    invokeByFlagsAndSize c threadIdx_x Transform scatter_offsets valid_flags
      partial_tile_size 0 0 s
  else
    invokeByFlags c Transform scatter_offsets valid_flags 0 0 s

/-- The transform-absent flag overload `ScatterTile::Scatter(dest, data,
flags, scatter_offsets, partial_tile_size)`: delegates with
`Operators<T>::NopTransform`. -/
def ScatterFlagsNop {T : Type} (c : Cfg) (threadIdx_x : Nat)
    (valid_flags : Nat → Nat → Bool) (scatter_offsets : Nat → Nat → Nat)
    (partial_tile_size : Nat) (s : Tile T) : Tile T :=
  ScatterFlags c threadIdx_x NopTransform valid_flags scatter_offsets partial_tile_size s

/-- The list of `(LOAD, VEC)` positions the `Iterate` recursion visits
starting from `(LOAD, VEC)`: vec index fastest, rolling over to the next
load, stopping at `LOADS_PER_TILE`.  Same recursion shape as the `Invoke`
variants. -/
def pairsFrom (c : Cfg) (LOAD VEC : Nat) : List (Nat × Nat) :=
  if c.LOADS_PER_TILE ≤ LOAD then []
  else if c.LOAD_VEC_SIZE ≤ VEC then pairsFrom c (LOAD + 1) 0
  else (LOAD, VEC) :: pairsFrom c LOAD (VEC + 1)
termination_by (c.LOADS_PER_TILE - LOAD, c.LOAD_VEC_SIZE - VEC)
decreasing_by
  · apply Prod.Lex.left; omega
  · apply Prod.Lex.right; omega

/-- Process an explicit list of element positions, storing each one whose
guard passes.  `invokeGuarded` from `(LOAD, VEC)` is this applied to
`pairsFrom c LOAD VEC`. -/
def applyPairs {T : Type} (g : Nat → Nat → Bool) (Transform : T → T)
    (scatter_offsets : Nat → Nat → Nat) : List (Nat × Nat) → Tile T → Tile T
  | [], s => s
  | p :: ps, s =>
    applyPairs g Transform scatter_offsets ps
      (if g p.1 p.2 then storeElement Transform scatter_offsets p.1 p.2 s else s)

/-- The trace of store events a guarded traversal over positions `ps`
issues when started on value array `data`: one `(address, transformed
value)` event per guard-passing position, in traversal order. -/
def traceOf {T : Type} (g : Nat → Nat → Bool) (Transform : T → T)
    (scatter_offsets : Nat → Nat → Nat) (data : Nat → Nat → T)
    (ps : List (Nat × Nat)) : List (Nat × T) :=
  (ps.filter fun p => g p.1 p.2).map fun p =>
    (scatter_offsets p.1 p.2, Transform (data p.1 p.2))

/-- Replay a trace of store events against a buffer, earliest event
first. -/
def applyWrites {T : Type} : List (Nat × T) → (Nat → T) → (Nat → T)
  | [], d => d
  | w :: ws, d => applyWrites ws (ModifiedStore.St w.2 d w.1)

/-- The value of the last store event targeting address `a` in a trace
(earliest event first), if any. -/
def lastWrite {T : Type} : List (Nat × T) → Nat → Option T
  | [], _ => none
  | w :: ws, a =>
    match lastWrite ws a with
    | some v => some v
    | none => if a = w.1 then some w.2 else none

/-! ### The four `Invoke` variants as instances of the generic guarded traversal -/

theorem invokeUnguarded_eq_guarded {T : Type} (c : Cfg) (Transform : T → T)
    (scatter_offsets : Nat → Nat → Nat) (LOAD VEC : Nat) (s : Tile T) :
    invokeUnguarded c Transform scatter_offsets LOAD VEC s =
      invokeGuarded c (fun _ _ => true) Transform scatter_offsets LOAD VEC s := by
  induction LOAD, VEC, s using invokeUnguarded.induct c Transform scatter_offsets with
  | case1 LOAD VEC s h =>
    rw [invokeUnguarded, invokeGuarded]; simp [h]
  | case2 LOAD VEC s h1 h2 ih =>
    rw [invokeUnguarded, invokeGuarded]; simp [h1, h2, ih]
  | case3 LOAD VEC s h1 h2 ih =>
    rw [invokeUnguarded, invokeGuarded]; simpa [h1, h2] using ih

theorem invokeByFlags_eq_guarded {T : Type} (c : Cfg) (Transform : T → T)
    (scatter_offsets : Nat → Nat → Nat) (valid_flags : Nat → Nat → Bool)
    (LOAD VEC : Nat) (s : Tile T) :
    invokeByFlags c Transform scatter_offsets valid_flags LOAD VEC s =
      invokeGuarded c valid_flags Transform scatter_offsets LOAD VEC s := by
  induction LOAD, VEC, s using invokeByFlags.induct c Transform scatter_offsets valid_flags with
  | case1 LOAD VEC s h =>
    rw [invokeByFlags, invokeGuarded]; simp [h]
  | case2 LOAD VEC s h1 h2 ih =>
    rw [invokeByFlags, invokeGuarded]; simp [h1, h2, ih]
  | case3 LOAD VEC s h1 h2 ih =>
    rw [invokeByFlags, invokeGuarded]; simpa [h1, h2] using ih

/-- The shift in the source's `tile_rank` computation agrees with the
spec's multiplication formula. -/
theorem tile_rank_shift (c : Cfg) (lane load vec : Nat) :
    (lane <<< c.LOG_LOAD_VEC_SIZE) + (load * c.ACTIVE_THREADS * c.LOAD_VEC_SIZE) + vec =
      tileRank c lane load vec := by
  simp [tileRank, Cfg.LOAD_VEC_SIZE, Nat.shiftLeft_eq, Nat.one_shiftLeft]

theorem invokeBySize_eq_guarded {T : Type} (c : Cfg) (threadIdx_x : Nat) (Transform : T → T)
    (scatter_offsets : Nat → Nat → Nat) (partial_tile_size : Nat)
    (LOAD VEC : Nat) (s : Tile T) :
    invokeBySize c threadIdx_x Transform scatter_offsets partial_tile_size LOAD VEC s =
      invokeGuarded c (fun l v => decide (tileRank c threadIdx_x l v < partial_tile_size))
        Transform scatter_offsets LOAD VEC s := by
  induction LOAD, VEC, s using
    invokeBySize.induct c threadIdx_x Transform scatter_offsets partial_tile_size with
  | case1 LOAD VEC s h =>
    rw [invokeBySize, invokeGuarded]; simp [h]
  | case2 LOAD VEC s h1 h2 ih =>
    rw [invokeBySize, invokeGuarded]; simp [h1, h2, ih]
  | case3 LOAD VEC s h1 h2 rk ih =>
    rw [invokeBySize, invokeGuarded]
    simp only [h1, h2, if_false, decide_eq_true_eq, dite_eq_ite]
    simp only [dite_eq_ite] at ih
    unfold rk at ih
    rw [tile_rank_shift] at ih
    rw [tile_rank_shift]
    exact ih

theorem invokeByFlagsAndSize_eq_guarded {T : Type} (c : Cfg) (threadIdx_x : Nat)
    (Transform : T → T) (scatter_offsets : Nat → Nat → Nat)
    (valid_flags : Nat → Nat → Bool) (partial_tile_size : Nat)
    (LOAD VEC : Nat) (s : Tile T) :
    invokeByFlagsAndSize c threadIdx_x Transform scatter_offsets valid_flags
        partial_tile_size LOAD VEC s =
      invokeGuarded c
        (fun l v => valid_flags l v && decide (tileRank c threadIdx_x l v < partial_tile_size))
        Transform scatter_offsets LOAD VEC s := by
  induction LOAD, VEC, s using
    invokeByFlagsAndSize.induct c threadIdx_x Transform scatter_offsets valid_flags
      partial_tile_size with
  | case1 LOAD VEC s h =>
    rw [invokeByFlagsAndSize, invokeGuarded]; simp [h]
  | case2 LOAD VEC s h1 h2 ih =>
    rw [invokeByFlagsAndSize, invokeGuarded]; simp [h1, h2, ih]
  | case3 LOAD VEC s h1 h2 rk ih =>
    rw [invokeByFlagsAndSize, invokeGuarded]
    simp only [h1, h2, if_false, Bool.and_eq_true, decide_eq_true_eq, dite_eq_ite]
    simp only [dite_eq_ite] at ih
    unfold rk at ih
    rw [tile_rank_shift] at ih
    rw [tile_rank_shift]
    exact ih

/-! ### The guarded traversal as a fold over the visited position list -/

theorem invokeGuarded_eq_applyPairs {T : Type} (c : Cfg) (g : Nat → Nat → Bool)
    (Transform : T → T) (scatter_offsets : Nat → Nat → Nat)
    (LOAD VEC : Nat) (s : Tile T) :
    invokeGuarded c g Transform scatter_offsets LOAD VEC s =
      applyPairs g Transform scatter_offsets (pairsFrom c LOAD VEC) s := by
  induction LOAD, VEC, s using invokeGuarded.induct c g Transform scatter_offsets with
  | case1 LOAD VEC s h =>
    rw [invokeGuarded, pairsFrom]; simp [h, applyPairs]
  | case2 LOAD VEC s h1 h2 ih =>
    rw [invokeGuarded, pairsFrom]; simp [h1, h2, ih]
  | case3 LOAD VEC s h1 h2 ih =>
    rw [invokeGuarded, pairsFrom]
    simp only [h1, h2, if_false, dite_eq_ite] at *
    rw [applyPairs]
    exact ih

theorem pairsFrom_mem (c : Cfg) (l v LOAD VEC : Nat) :
    (l, v) ∈ pairsFrom c LOAD VEC ↔
      l < c.LOADS_PER_TILE ∧ v < c.LOAD_VEC_SIZE ∧
        (LOAD < l ∨ (LOAD = l ∧ VEC ≤ v)) := by
  induction LOAD, VEC using pairsFrom.induct c with
  | case1 LOAD VEC h =>
    rw [pairsFrom]; simp only [if_pos h, List.not_mem_nil, false_iff]
    omega
  | case2 LOAD VEC h1 h2 ih =>
    rw [pairsFrom]; simp only [if_neg h1, if_pos h2, ih]
    omega
  | case3 LOAD VEC h1 h2 ih =>
    rw [pairsFrom]
    simp only [if_neg h1, if_neg h2, List.mem_cons, ih, Prod.mk.injEq]
    omega

theorem pairsFrom_nodup (c : Cfg) (LOAD VEC : Nat) :
    (pairsFrom c LOAD VEC).Nodup := by
  induction LOAD, VEC using pairsFrom.induct c with
  | case1 LOAD VEC h =>
    rw [pairsFrom]; simp [h]
  | case2 LOAD VEC h1 h2 ih =>
    rw [pairsFrom]; simpa [h1, h2] using ih
  | case3 LOAD VEC h1 h2 ih =>
    rw [pairsFrom]
    simp only [if_neg h1, if_neg h2, List.nodup_cons]
    refine ⟨fun hmem => ?_, ih⟩
    rw [pairsFrom_mem] at hmem
    omega

/-! ### Replaying traces: frame, last-writer, idempotence -/

theorem applyWrites_eq_lastWrite {T : Type} (ws : List (Nat × T)) (d : Nat → T) (a : Nat) :
    applyWrites ws d a = (lastWrite ws a).getD (d a) := by
  induction ws generalizing d with
  | nil => rfl
  | cons w ws ih =>
    rw [applyWrites, lastWrite, ih]
    cases h : lastWrite ws a with
    | some v => simp [h]
    | none =>
      simp only [h, ModifiedStore.St]
      by_cases ha : a = w.1 <;> simp [ha]

theorem applyWrites_frame {T : Type} (ws : List (Nat × T)) (d : Nat → T) (a : Nat)
    (h : ∀ w ∈ ws, w.1 ≠ a) : applyWrites ws d a = d a := by
  induction ws generalizing d with
  | nil => rfl
  | cons w ws ih =>
    rw [applyWrites, ih _ (fun x hx => h x (List.mem_cons_of_mem w hx))]
    simp only [ModifiedStore.St]
    rw [if_neg]
    exact fun he => h w (List.mem_cons_self w ws) (he ▸ rfl)

theorem lastWrite_eq_none {T : Type} (ws : List (Nat × T)) (a : Nat)
    (h : ∀ w ∈ ws, w.1 ≠ a) : lastWrite ws a = none := by
  induction ws with
  | nil => rfl
  | cons w ws ih =>
    rw [lastWrite, ih (fun x hx => h x (List.mem_cons_of_mem w hx))]
    simp only []
    rw [if_neg]
    exact fun he => h w (List.mem_cons_self w ws) (he ▸ rfl)

theorem lastWrite_mem {T : Type} (ws : List (Nat × T)) (a : Nat) (v : T)
    (h : lastWrite ws a = some v) : (a, v) ∈ ws := by
  induction ws with
  | nil => simp [lastWrite] at h
  | cons w ws ih =>
    rw [lastWrite] at h
    cases hw : lastWrite ws a with
    | some u =>
      rw [hw] at h
      simp only [Option.some.injEq] at h
      exact List.mem_cons_of_mem w (ih (h ▸ hw))
    | none =>
      rw [hw] at h
      simp only [] at h
      by_cases ha : a = w.1
      · rw [if_pos ha] at h
        simp only [Option.some.injEq] at h
        have : (a, v) = w := by
          cases w; simp_all
        exact this ▸ List.mem_cons_self w ws
      · rw [if_neg ha] at h
        exact absurd h (by simp)

theorem lastWrite_of_nodup_mem {T : Type} (ws : List (Nat × T)) (a : Nat) (v : T)
    (hnd : (ws.map Prod.fst).Nodup) (hmem : (a, v) ∈ ws) :
    lastWrite ws a = some v := by
  induction ws with
  | nil => simp at hmem
  | cons w ws ih =>
    rw [List.map_cons, List.nodup_cons] at hnd
    rw [lastWrite]
    rcases List.mem_cons.mp hmem with heq | htail
    · have hnone : lastWrite ws a = none := by
        apply lastWrite_eq_none
        intro x hx he
        apply hnd.1
        have hw1 : w.1 = a := by rw [← heq]
        rw [hw1, ← he]
        exact List.mem_map_of_mem Prod.fst hx
      rw [hnone, ← heq]
      simp
    · rw [ih hnd.2 htail]

theorem applyWrites_idem {T : Type} (ws : List (Nat × T)) (d : Nat → T) :
    applyWrites ws (applyWrites ws d) = applyWrites ws d := by
  funext a
  rw [applyWrites_eq_lastWrite, applyWrites_eq_lastWrite]
  cases lastWrite ws a <;> simp

/-! ### Characterizing one guarded traversal -/

theorem storeElement_data_ne {T : Type} (Transform : T → T)
    (scatter_offsets : Nat → Nat → Nat) (p : Nat × Nat) (s : Tile T)
    (l v : Nat) (h : (l, v) ≠ p) :
    (storeElement Transform scatter_offsets p.1 p.2 s).data l v = s.data l v := by
  simp only [storeElement]
  rw [if_neg]
  rintro ⟨h1, h2⟩
  exact h (Prod.ext h1 h2)

theorem traceOf_congr {T : Type} (g : Nat → Nat → Bool) (Transform : T → T)
    (scatter_offsets : Nat → Nat → Nat) (d1 d2 : Nat → Nat → T)
    (ps : List (Nat × Nat)) (h : ∀ q ∈ ps, d1 q.1 q.2 = d2 q.1 q.2) :
    traceOf g Transform scatter_offsets d1 ps =
      traceOf g Transform scatter_offsets d2 ps := by
  unfold traceOf
  apply List.map_congr_left
  intro q hq
  rw [h q (List.mem_of_mem_filter hq)]

theorem storeElement_data {T : Type} (Transform : T → T)
    (scatter_offsets : Nat → Nat → Nat) (LOAD VEC : Nat) (s : Tile T) :
    (storeElement Transform scatter_offsets LOAD VEC s).data =
      fun l w => if l = LOAD ∧ w = VEC then Transform (s.data LOAD VEC)
        else s.data l w := rfl

theorem storeElement_dest {T : Type} (Transform : T → T)
    (scatter_offsets : Nat → Nat → Nat) (LOAD VEC : Nat) (s : Tile T) :
    (storeElement Transform scatter_offsets LOAD VEC s).dest =
      ModifiedStore.St (Transform (s.data LOAD VEC)) s.dest
        (scatter_offsets LOAD VEC) := rfl

theorem storeElement_writes {T : Type} (Transform : T → T)
    (scatter_offsets : Nat → Nat → Nat) (LOAD VEC : Nat) (s : Tile T) :
    (storeElement Transform scatter_offsets LOAD VEC s).writes =
      s.writes ++ [(scatter_offsets LOAD VEC, Transform (s.data LOAD VEC))] := rfl

/-- What one guarded traversal over a duplicate-free position list does:
each guard-passing position's value is transformed in place exactly once,
the destination buffer is the replay of the traversal's store trace, and
that trace is appended to the event log. -/
theorem applyPairs_eq {T : Type} (g : Nat → Nat → Bool) (Transform : T → T)
    (scatter_offsets : Nat → Nat → Nat) (ps : List (Nat × Nat)) (s : Tile T)
    (hnd : ps.Nodup) :
    applyPairs g Transform scatter_offsets ps s =
      ⟨fun l v => if (l, v) ∈ ps ∧ g l v then Transform (s.data l v) else s.data l v,
       applyWrites (traceOf g Transform scatter_offsets s.data ps) s.dest,
       s.writes ++ traceOf g Transform scatter_offsets s.data ps⟩ := by
  induction ps generalizing s with
  | nil =>
    rw [applyPairs]
    simp [traceOf, applyWrites]
  | cons p ps ih =>
    obtain ⟨hp, hnd2⟩ := List.nodup_cons.mp hnd
    rw [applyPairs]
    by_cases hg : g p.1 p.2
    · rw [if_pos hg, ih _ hnd2]
      have hA : traceOf g Transform scatter_offsets
          (storeElement Transform scatter_offsets p.1 p.2 s).data ps =
          traceOf g Transform scatter_offsets s.data ps := by
        apply traceOf_congr
        intro q hq
        exact storeElement_data_ne _ _ _ _ _ _ (fun he => hp (he ▸ hq))
      have htr : traceOf g Transform scatter_offsets s.data (p :: ps) =
          (scatter_offsets p.1 p.2, Transform (s.data p.1 p.2)) ::
            traceOf g Transform scatter_offsets s.data ps := by
        simp [traceOf, List.filter_cons, hg]
      rw [hA, htr, Tile.mk.injEq]
      refine ⟨?_, ?_, ?_⟩
      · funext l v
        by_cases hlv : (l, v) = p
        · have h1 : l = p.1 := by rw [← hlv]
          have h2 : v = p.2 := by rw [← hlv]
          subst h1; subst h2
          simp [storeElement_data, Prod.mk.eta, hp, hg]
        · rw [storeElement_data]
          have hne : ¬(l = p.1 ∧ v = p.2) := by
            rintro ⟨h1, h2⟩
            exact hlv (Prod.ext h1 h2)
          have hmem : ((l, v) ∈ p :: ps) ↔ ((l, v) ∈ ps) := by
            simp [List.mem_cons, hlv]
          simp only [hne, if_false, hmem]
      · rfl
      · rw [storeElement_writes, List.append_assoc, List.singleton_append]
    · rw [if_neg hg, ih _ hnd2]
      have htr : traceOf g Transform scatter_offsets s.data (p :: ps) =
          traceOf g Transform scatter_offsets s.data ps := by
        simp [traceOf, List.filter_cons, hg]
      rw [htr, Tile.mk.injEq]
      refine ⟨?_, rfl, rfl⟩
      funext l v
      by_cases hlv : (l, v) = p
      · have h1 : l = p.1 := by rw [← hlv]
        have h2 : v = p.2 := by rw [← hlv]
        subst h1; subst h2
        have hgl : g p.1 p.2 = false := Bool.eq_false_iff.mpr hg
        simp [hgl]
      · have hmem : ((l, v) ∈ p :: ps) ↔ ((l, v) ∈ ps) := by
          simp [List.mem_cons, hlv]
        simp only [hmem]

/-! ### Whole-call corollaries -/

theorem pairsFrom_zero_mem (c : Cfg) (l v : Nat) :
    (l, v) ∈ pairsFrom c 0 0 ↔ l < c.LOADS_PER_TILE ∧ v < c.LOAD_VEC_SIZE := by
  rw [pairsFrom_mem]
  omega

theorem invokeGuarded_writes {T : Type} (c : Cfg) (g : Nat → Nat → Bool)
    (Transform : T → T) (scatter_offsets : Nat → Nat → Nat) (s : Tile T) :
    (invokeGuarded c g Transform scatter_offsets 0 0 s).writes =
      s.writes ++ traceOf g Transform scatter_offsets s.data (pairsFrom c 0 0) := by
  rw [invokeGuarded_eq_applyPairs,
    applyPairs_eq _ _ _ _ _ (pairsFrom_nodup c 0 0)]

theorem invokeGuarded_dest {T : Type} (c : Cfg) (g : Nat → Nat → Bool)
    (Transform : T → T) (scatter_offsets : Nat → Nat → Nat) (s : Tile T) :
    (invokeGuarded c g Transform scatter_offsets 0 0 s).dest =
      applyWrites (traceOf g Transform scatter_offsets s.data (pairsFrom c 0 0))
        s.dest := by
  rw [invokeGuarded_eq_applyPairs,
    applyPairs_eq _ _ _ _ _ (pairsFrom_nodup c 0 0)]

theorem invokeGuarded_data {T : Type} (c : Cfg) (g : Nat → Nat → Bool)
    (Transform : T → T) (scatter_offsets : Nat → Nat → Nat) (s : Tile T) :
    (invokeGuarded c g Transform scatter_offsets 0 0 s).data =
      fun l v => if (l, v) ∈ pairsFrom c 0 0 ∧ g l v then Transform (s.data l v)
        else s.data l v := by
  rw [invokeGuarded_eq_applyPairs,
    applyPairs_eq _ _ _ _ _ (pairsFrom_nodup c 0 0)]

theorem traceOf_fst_mem {T : Type} (g : Nat → Nat → Bool) (Transform : T → T)
    (scatter_offsets : Nat → Nat → Nat) (data : Nat → Nat → T)
    (ps : List (Nat × Nat)) (w : Nat × T) (hw : w ∈ traceOf g Transform scatter_offsets data ps) :
    ∃ q ∈ ps, g q.1 q.2 = true ∧ w.1 = scatter_offsets q.1 q.2 := by
  simp only [traceOf, List.mem_map, List.mem_filter] at hw
  obtain ⟨q, ⟨hq, hg⟩, rfl⟩ := hw
  exact ⟨q, hq, hg, rfl⟩

/-- Destination cells not targeted by any in-range, guard-passing element
keep their pre-call contents. -/
theorem invokeGuarded_frame {T : Type} (c : Cfg) (g : Nat → Nat → Bool)
    (Transform : T → T) (scatter_offsets : Nat → Nat → Nat) (s : Tile T) (a : Nat)
    (h : ∀ l v, l < c.LOADS_PER_TILE → v < c.LOAD_VEC_SIZE → g l v = true →
      scatter_offsets l v ≠ a) :
    (invokeGuarded c g Transform scatter_offsets 0 0 s).dest a = s.dest a := by
  rw [invokeGuarded_dest]
  apply applyWrites_frame
  intro w hw
  obtain ⟨q, hq, hg, hfst⟩ := traceOf_fst_mem _ _ _ _ _ _ hw
  rw [pairsFrom_zero_mem] at hq
  rw [hfst]
  exact h q.1 q.2 hq.1 hq.2 hg

/-! ### Façade dispatch -/

theorem Scatter_dispatch_lt {T : Type} (c : Cfg) (threadIdx_x : Nat) (Transform : T → T)
    (scatter_offsets : Nat → Nat → Nat) (partial_tile_size : Nat) (s : Tile T)
    (h : partial_tile_size < c.TILE_SIZE) :
    Scatter c threadIdx_x Transform scatter_offsets partial_tile_size s =
      invokeBySize c threadIdx_x Transform scatter_offsets partial_tile_size 0 0 s := by
  rw [Scatter, if_pos h]

theorem Scatter_dispatch_ge {T : Type} (c : Cfg) (threadIdx_x : Nat) (Transform : T → T)
    (scatter_offsets : Nat → Nat → Nat) (partial_tile_size : Nat) (s : Tile T)
    (h : ¬partial_tile_size < c.TILE_SIZE) :
    Scatter c threadIdx_x Transform scatter_offsets partial_tile_size s =
      invokeUnguarded c Transform scatter_offsets 0 0 s := by
  rw [Scatter, if_neg h]

theorem ScatterFlags_dispatch_lt {T : Type} (c : Cfg) (threadIdx_x : Nat)
    (Transform : T → T) (valid_flags : Nat → Nat → Bool)
    (scatter_offsets : Nat → Nat → Nat) (partial_tile_size : Nat) (s : Tile T)
    (h : partial_tile_size < c.TILE_SIZE) :
    ScatterFlags c threadIdx_x Transform valid_flags scatter_offsets partial_tile_size s =
      invokeByFlagsAndSize c threadIdx_x Transform scatter_offsets valid_flags
        partial_tile_size 0 0 s := by
  rw [ScatterFlags, if_pos h]

theorem ScatterFlags_dispatch_ge {T : Type} (c : Cfg) (threadIdx_x : Nat)
    (Transform : T → T) (valid_flags : Nat → Nat → Bool)
    (scatter_offsets : Nat → Nat → Nat) (partial_tile_size : Nat) (s : Tile T)
    (h : ¬partial_tile_size < c.TILE_SIZE) :
    ScatterFlags c threadIdx_x Transform valid_flags scatter_offsets partial_tile_size s =
      invokeByFlags c Transform scatter_offsets valid_flags 0 0 s := by
  rw [ScatterFlags, if_neg h]

theorem lastWrite_isSome_of_mem {T : Type} (ws : List (Nat × T)) (a : Nat) (v : T)
    (h : (a, v) ∈ ws) : ∃ u, lastWrite ws a = some u := by
  induction ws with
  | nil => simp at h
  | cons w ws ih =>
    rw [lastWrite]
    rcases List.mem_cons.mp h with heq | htail
    · cases hw : lastWrite ws a with
      | some u => exact ⟨u, rfl⟩
      | none =>
        refine ⟨w.2, ?_⟩
        rw [if_pos]
        rw [← heq]
    · obtain ⟨u, hu⟩ := ih htail
      rw [hu]
      exact ⟨u, rfl⟩

/-! ### Concrete fixtures used by the witnesses -/

/-- A small concrete shape: 2 loads × 2 vector slots, 1 active lane,
tile capacity 4. -/
def cfgW : Cfg := ⟨1, 1, 1⟩

/-- Concrete collision-free offsets for `cfgW`. -/
def offsW : Nat → Nat → Nat := fun l v => 2 * l + v

/-- Concrete lane-local values for `cfgW`. -/
def dataW : Nat → Nat → Nat := fun l v => 10 + 2 * l + v

/-- Concrete flags for `cfgW`: the diagonal elements. -/
def flagsW : Nat → Nat → Bool := fun l v => decide (l = v)

/-- Concrete initial lane state over a zeroed destination. -/
def tileW : Tile Nat := ⟨dataW, fun _ => 0, []⟩

/-! ### Claims -/

/-- C1. In every `Iterate::Invoke` variant, the store events issued are
exactly those of the elements whose guard holds (all elements for the
unguarded variant; `tile_rank < partial_tile_size` for the size-guarded
one; the flag for the flag-guarded one; both for the combined one), in
traversal order; and every destination cell not targeted by a
guard-passing element keeps its pre-call contents. -/
theorem scatter_writes_exactly_guarded {T : Type} (c : Cfg) (threadIdx_x : Nat)
    (Transform : T → T) (scatter_offsets : Nat → Nat → Nat)
    (valid_flags : Nat → Nat → Bool) (partial_tile_size : Nat) (s : Tile T) :
    ((invokeUnguarded c Transform scatter_offsets 0 0 s).writes =
      s.writes ++ traceOf (fun _ _ => true) Transform scatter_offsets s.data
        (pairsFrom c 0 0))
    ∧ ((invokeByFlags c Transform scatter_offsets valid_flags 0 0 s).writes =
      s.writes ++ traceOf valid_flags Transform scatter_offsets s.data
        (pairsFrom c 0 0))
    ∧ ((invokeBySize c threadIdx_x Transform scatter_offsets partial_tile_size 0 0 s).writes =
      s.writes ++ traceOf
        (fun l v => decide (tileRank c threadIdx_x l v < partial_tile_size))
        Transform scatter_offsets s.data (pairsFrom c 0 0))
    ∧ ((invokeByFlagsAndSize c threadIdx_x Transform scatter_offsets valid_flags
        partial_tile_size 0 0 s).writes =
      s.writes ++ traceOf
        (fun l v => valid_flags l v &&
          decide (tileRank c threadIdx_x l v < partial_tile_size))
        Transform scatter_offsets s.data (pairsFrom c 0 0))
    ∧ (∀ (g : Nat → Nat → Bool) (a : Nat),
        (∀ l v, l < c.LOADS_PER_TILE → v < c.LOAD_VEC_SIZE → g l v = true →
          scatter_offsets l v ≠ a) →
        (invokeGuarded c g Transform scatter_offsets 0 0 s).dest a = s.dest a) := by
  refine ⟨?_, ?_, ?_, ?_, ?_⟩
  · rw [invokeUnguarded_eq_guarded, invokeGuarded_writes]
  · rw [invokeByFlags_eq_guarded, invokeGuarded_writes]
  · rw [invokeBySize_eq_guarded, invokeGuarded_writes]
  · rw [invokeByFlagsAndSize_eq_guarded, invokeGuarded_writes]
  · intro g a h
    exact invokeGuarded_frame c g Transform scatter_offsets s a h

theorem scatter_writes_exactly_guarded_w :
    (invokeGuarded cfgW (fun _ _ => false) (fun x : Nat => x) offsW 0 0 tileW).dest 3 =
      tileW.dest 3 :=
  (scatter_writes_exactly_guarded cfgW 0 (fun x : Nat => x) offsW flagsW 2
    tileW).2.2.2.2 (fun _ _ => false) 3
    (fun l v _ _ hf => absurd hf (by simp))

/-- C4. Each of the four `Scatter` shapes dispatches on one comparison of
`partial_tile_size` with `TILE_SIZE`: strictly less selects the
boundary-checking `Iterate` variant (with flags when supplied), otherwise
the variant with no boundary check is selected. -/
theorem scatter_dispatch_once {T : Type} (c : Cfg) (threadIdx_x : Nat)
    (Transform : T → T) (valid_flags : Nat → Nat → Bool)
    (scatter_offsets : Nat → Nat → Nat) (partial_tile_size : Nat) (s : Tile T) :
    (partial_tile_size < c.TILE_SIZE →
      (Scatter c threadIdx_x Transform scatter_offsets partial_tile_size s =
        invokeBySize c threadIdx_x Transform scatter_offsets partial_tile_size 0 0 s)
      ∧ (ScatterNop c threadIdx_x scatter_offsets partial_tile_size s =
        invokeBySize c threadIdx_x NopTransform scatter_offsets partial_tile_size 0 0 s)
      ∧ (ScatterFlags c threadIdx_x Transform valid_flags scatter_offsets
          partial_tile_size s =
        invokeByFlagsAndSize c threadIdx_x Transform scatter_offsets valid_flags
          partial_tile_size 0 0 s)
      ∧ (ScatterFlagsNop c threadIdx_x valid_flags scatter_offsets partial_tile_size s =
        invokeByFlagsAndSize c threadIdx_x NopTransform scatter_offsets valid_flags
          partial_tile_size 0 0 s))
    ∧ (¬partial_tile_size < c.TILE_SIZE →
      (Scatter c threadIdx_x Transform scatter_offsets partial_tile_size s =
        invokeUnguarded c Transform scatter_offsets 0 0 s)
      ∧ (ScatterNop c threadIdx_x scatter_offsets partial_tile_size s =
        invokeUnguarded c NopTransform scatter_offsets 0 0 s)
      ∧ (ScatterFlags c threadIdx_x Transform valid_flags scatter_offsets
          partial_tile_size s =
        invokeByFlags c Transform scatter_offsets valid_flags 0 0 s)
      ∧ (ScatterFlagsNop c threadIdx_x valid_flags scatter_offsets partial_tile_size s =
        invokeByFlags c NopTransform scatter_offsets valid_flags 0 0 s)) := by
  constructor
  · intro h
    exact ⟨Scatter_dispatch_lt _ _ _ _ _ _ h,
      Scatter_dispatch_lt _ _ _ _ _ _ h,
      ScatterFlags_dispatch_lt _ _ _ _ _ _ _ h,
      ScatterFlags_dispatch_lt _ _ _ _ _ _ _ h⟩
  · intro h
    exact ⟨Scatter_dispatch_ge _ _ _ _ _ _ h,
      Scatter_dispatch_ge _ _ _ _ _ _ h,
      ScatterFlags_dispatch_ge _ _ _ _ _ _ _ h,
      ScatterFlags_dispatch_ge _ _ _ _ _ _ _ h⟩

theorem scatter_dispatch_once_w :
    (Scatter cfgW 0 (fun x : Nat => x) offsW 3 tileW =
      invokeBySize cfgW 0 (fun x : Nat => x) offsW 3 0 0 tileW)
    ∧ (Scatter cfgW 0 (fun x : Nat => x) offsW 4 tileW =
      invokeUnguarded cfgW (fun x : Nat => x) offsW 0 0 tileW) :=
  ⟨((scatter_dispatch_once cfgW 0 (fun x : Nat => x) flagsW offsW 3 tileW).1
      (by decide)).1,
   ((scatter_dispatch_once cfgW 0 (fun x : Nat => x) flagsW offsW 4 tileW).2
      (by decide)).1⟩

/-- C5. Both boundary-checking `Iterate` variants behave exactly as the
generic guarded traversal whose guard is the comparison of the flattened
tile rank `(lane_index × vector_size) + (load_index × active_lanes ×
vector_size) + vec_index` against `partial_tile_size` (conjoined with the
flag in the combined variant) — so the rank enters the computation only
through that comparison — and the source's shift-based rank computation
equals that formula. -/
theorem tile_rank_guard_only {T : Type} (c : Cfg) (threadIdx_x : Nat)
    (Transform : T → T) (scatter_offsets : Nat → Nat → Nat)
    (valid_flags : Nat → Nat → Bool) (partial_tile_size : Nat)
    (LOAD VEC : Nat) (s : Tile T) :
    (invokeBySize c threadIdx_x Transform scatter_offsets partial_tile_size LOAD VEC s =
      invokeGuarded c
        (fun l v => decide (tileRank c threadIdx_x l v < partial_tile_size))
        Transform scatter_offsets LOAD VEC s)
    ∧ (invokeByFlagsAndSize c threadIdx_x Transform scatter_offsets valid_flags
        partial_tile_size LOAD VEC s =
      invokeGuarded c
        (fun l v => valid_flags l v &&
          decide (tileRank c threadIdx_x l v < partial_tile_size))
        Transform scatter_offsets LOAD VEC s)
    ∧ ((threadIdx_x <<< c.LOG_LOAD_VEC_SIZE) +
        (LOAD * c.ACTIVE_THREADS * c.LOAD_VEC_SIZE) + VEC =
      tileRank c threadIdx_x LOAD VEC) :=
  ⟨invokeBySize_eq_guarded c threadIdx_x Transform scatter_offsets partial_tile_size
      LOAD VEC s,
   invokeByFlagsAndSize_eq_guarded c threadIdx_x Transform scatter_offsets valid_flags
      partial_tile_size LOAD VEC s,
   tile_rank_shift c threadIdx_x LOAD VEC⟩

/-- C6. The transform is applied in place exactly once to each in-range
element whose guard passes and to no other element — the caller-visible
value array reflects the mutation after the call — and every store event
carries the transformed value of its element, computed immediately before
the store. -/
theorem transform_once_in_place {T : Type} (c : Cfg) (threadIdx_x : Nat)
    (g : Nat → Nat → Bool) (Transform : T → T)
    (scatter_offsets : Nat → Nat → Nat) (valid_flags : Nat → Nat → Bool)
    (partial_tile_size : Nat) (s : Tile T) :
    ((invokeGuarded c g Transform scatter_offsets 0 0 s).data = fun l v =>
      if (l, v) ∈ pairsFrom c 0 0 ∧ g l v then Transform (s.data l v)
      else s.data l v)
    ∧ ((invokeGuarded c g Transform scatter_offsets 0 0 s).writes =
      s.writes ++ traceOf g Transform scatter_offsets s.data (pairsFrom c 0 0))
    ∧ (invokeUnguarded c Transform scatter_offsets 0 0 s =
      invokeGuarded c (fun _ _ => true) Transform scatter_offsets 0 0 s)
    ∧ (invokeByFlags c Transform scatter_offsets valid_flags 0 0 s =
      invokeGuarded c valid_flags Transform scatter_offsets 0 0 s)
    ∧ (invokeBySize c threadIdx_x Transform scatter_offsets partial_tile_size 0 0 s =
      invokeGuarded c
        (fun l v => decide (tileRank c threadIdx_x l v < partial_tile_size))
        Transform scatter_offsets 0 0 s)
    ∧ (invokeByFlagsAndSize c threadIdx_x Transform scatter_offsets valid_flags
        partial_tile_size 0 0 s =
      invokeGuarded c
        (fun l v => valid_flags l v &&
          decide (tileRank c threadIdx_x l v < partial_tile_size))
        Transform scatter_offsets 0 0 s) :=
  ⟨invokeGuarded_data c g Transform scatter_offsets s,
   invokeGuarded_writes c g Transform scatter_offsets s,
   invokeUnguarded_eq_guarded c Transform scatter_offsets 0 0 s,
   invokeByFlags_eq_guarded c Transform scatter_offsets valid_flags 0 0 s,
   invokeBySize_eq_guarded c threadIdx_x Transform scatter_offsets partial_tile_size
     0 0 s,
   invokeByFlagsAndSize_eq_guarded c threadIdx_x Transform scatter_offsets valid_flags
     partial_tile_size 0 0 s⟩

/-- C10. For every `partial_tile_size` at or above the tile capacity —
including values strictly above the documented bound — every `Scatter`
shape takes the full-tile path: the dispatch selects the variant with no
boundary check, so all elements (subject only to the flags, when supplied)
are written. -/
theorem scatter_oversized_size_full {T : Type} (c : Cfg) (threadIdx_x : Nat)
    (Transform : T → T) (valid_flags : Nat → Nat → Bool)
    (scatter_offsets : Nat → Nat → Nat) (partial_tile_size : Nat) (s : Tile T)
    (h : c.TILE_SIZE ≤ partial_tile_size) :
    (Scatter c threadIdx_x Transform scatter_offsets partial_tile_size s =
      invokeUnguarded c Transform scatter_offsets 0 0 s)
    ∧ (ScatterNop c threadIdx_x scatter_offsets partial_tile_size s =
      invokeUnguarded c NopTransform scatter_offsets 0 0 s)
    ∧ (ScatterFlags c threadIdx_x Transform valid_flags scatter_offsets
        partial_tile_size s =
      invokeByFlags c Transform scatter_offsets valid_flags 0 0 s)
    ∧ (ScatterFlagsNop c threadIdx_x valid_flags scatter_offsets partial_tile_size s =
      invokeByFlags c NopTransform scatter_offsets valid_flags 0 0 s)
    ∧ ((Scatter c threadIdx_x Transform scatter_offsets partial_tile_size s).writes =
      s.writes ++ traceOf (fun _ _ => true) Transform scatter_offsets s.data
        (pairsFrom c 0 0))
    ∧ ((ScatterFlags c threadIdx_x Transform valid_flags scatter_offsets
        partial_tile_size s).writes =
      s.writes ++ traceOf valid_flags Transform scatter_offsets s.data
        (pairsFrom c 0 0)) := by
  have hn : ¬partial_tile_size < c.TILE_SIZE := Nat.not_lt.mpr h
  refine ⟨Scatter_dispatch_ge _ _ _ _ _ _ hn,
    Scatter_dispatch_ge _ _ _ _ _ _ hn,
    ScatterFlags_dispatch_ge _ _ _ _ _ _ _ hn,
    ScatterFlags_dispatch_ge _ _ _ _ _ _ _ hn, ?_, ?_⟩
  · rw [Scatter_dispatch_ge _ _ _ _ _ _ hn, invokeUnguarded_eq_guarded,
      invokeGuarded_writes]
  · rw [ScatterFlags_dispatch_ge _ _ _ _ _ _ _ hn, invokeByFlags_eq_guarded,
      invokeGuarded_writes]

theorem scatter_oversized_size_full_w :
    Scatter cfgW 0 (fun x : Nat => x) offsW 100 tileW =
      invokeUnguarded cfgW (fun x : Nat => x) offsW 0 0 tileW :=
  (scatter_oversized_size_full cfgW 0 (fun x : Nat => x) flagsW offsW 100 tileW
    (by decide)).1

/-- C2. A full-tile call (`partial_tile_size = TILE_SIZE`) of the
no-flags, no-transform shape, with collision-free offsets, ends with
`destination[offsets[load][vec]]` holding the original value
`data[load][vec]` for every element of the tile. -/
theorem scatter_full_tile_correct {T : Type} (c : Cfg) (threadIdx_x : Nat)
    (scatter_offsets : Nat → Nat → Nat) (s : Tile T)
    (hinj : ∀ l1, l1 < c.LOADS_PER_TILE → ∀ v1, v1 < c.LOAD_VEC_SIZE →
      ∀ l2, l2 < c.LOADS_PER_TILE → ∀ v2, v2 < c.LOAD_VEC_SIZE →
      scatter_offsets l1 v1 = scatter_offsets l2 v2 → l1 = l2 ∧ v1 = v2)
    (l v : Nat) (hl : l < c.LOADS_PER_TILE) (hv : v < c.LOAD_VEC_SIZE) :
    (ScatterNop c threadIdx_x scatter_offsets c.TILE_SIZE s).dest
      (scatter_offsets l v) = s.data l v := by
  rw [ScatterNop, Scatter_dispatch_ge _ _ _ _ _ _ (lt_irrefl _),
    invokeUnguarded_eq_guarded, invokeGuarded_dest, applyWrites_eq_lastWrite]
  have hmem : (scatter_offsets l v, NopTransform (s.data l v)) ∈
      traceOf (fun _ _ => true) NopTransform scatter_offsets s.data
        (pairsFrom c 0 0) := by
    unfold traceOf
    refine List.mem_map.mpr ⟨(l, v), ?_, rfl⟩
    exact List.mem_filter.mpr ⟨(pairsFrom_zero_mem c l v).mpr ⟨hl, hv⟩, rfl⟩
  have hnd : ((traceOf (fun _ _ => true) NopTransform scatter_offsets s.data
      (pairsFrom c 0 0)).map Prod.fst).Nodup := by
    unfold traceOf
    rw [List.map_map]
    refine List.Nodup.map_on ?_ ((pairsFrom_nodup c 0 0).filter _)
    intro x hx y hy hxy
    have hxb := (pairsFrom_zero_mem c x.1 x.2).mp
      (by simpa using List.mem_of_mem_filter hx)
    have hyb := (pairsFrom_zero_mem c y.1 y.2).mp
      (by simpa using List.mem_of_mem_filter hy)
    obtain ⟨h1, h2⟩ := hinj x.1 hxb.1 x.2 hxb.2 y.1 hyb.1 y.2 hyb.2 hxy
    exact Prod.ext h1 h2
  rw [lastWrite_of_nodup_mem _ _ _ hnd hmem]
  rfl

theorem offsW_inj : ∀ l1, l1 < cfgW.LOADS_PER_TILE → ∀ v1, v1 < cfgW.LOAD_VEC_SIZE →
    ∀ l2, l2 < cfgW.LOADS_PER_TILE → ∀ v2, v2 < cfgW.LOAD_VEC_SIZE →
    offsW l1 v1 = offsW l2 v2 → l1 = l2 ∧ v1 = v2 := by
  have e1 : cfgW.LOADS_PER_TILE = 2 := rfl
  have e2 : cfgW.LOAD_VEC_SIZE = 2 := rfl
  intro l1 h1 v1 hv1 l2 h2 v2 hv2 he
  rw [e1] at h1 h2
  rw [e2] at hv1 hv2
  simp only [offsW] at he
  omega

theorem scatter_full_tile_correct_w :
    (ScatterNop cfgW 0 offsW (Cfg.TILE_SIZE cfgW) tileW).dest (offsW 1 0) =
      dataW 1 0 :=
  scatter_full_tile_correct cfgW 0 offsW tileW offsW_inj 1 0 (by decide) (by decide)

/-- C3. In the flag-accepting `Scatter` shapes (with and without an
explicit transform), when `partial_tile_size` equals the tile capacity the
store events are exactly those of the flag-true elements, and when it is
strictly below capacity they are exactly those of the elements whose flag
is true and whose tile rank is strictly less than `partial_tile_size`. -/
theorem scatter_flags_written_iff {T : Type} (c : Cfg) (threadIdx_x : Nat)
    (Transform : T → T) (valid_flags : Nat → Nat → Bool)
    (scatter_offsets : Nat → Nat → Nat) (partial_tile_size : Nat) (s : Tile T) :
    (partial_tile_size = c.TILE_SIZE →
      (ScatterFlags c threadIdx_x Transform valid_flags scatter_offsets
        partial_tile_size s).writes =
      s.writes ++ traceOf valid_flags Transform scatter_offsets s.data
        (pairsFrom c 0 0))
    ∧ (partial_tile_size < c.TILE_SIZE →
      (ScatterFlags c threadIdx_x Transform valid_flags scatter_offsets
        partial_tile_size s).writes =
      s.writes ++ traceOf
        (fun l v => valid_flags l v &&
          decide (tileRank c threadIdx_x l v < partial_tile_size))
        Transform scatter_offsets s.data (pairsFrom c 0 0))
    ∧ (partial_tile_size = c.TILE_SIZE →
      (ScatterFlagsNop c threadIdx_x valid_flags scatter_offsets
        partial_tile_size s).writes =
      s.writes ++ traceOf valid_flags NopTransform scatter_offsets s.data
        (pairsFrom c 0 0))
    ∧ (partial_tile_size < c.TILE_SIZE →
      (ScatterFlagsNop c threadIdx_x valid_flags scatter_offsets
        partial_tile_size s).writes =
      s.writes ++ traceOf
        (fun l v => valid_flags l v &&
          decide (tileRank c threadIdx_x l v < partial_tile_size))
        NopTransform scatter_offsets s.data (pairsFrom c 0 0)) := by
  refine ⟨?_, ?_, ?_, ?_⟩
  · intro h; subst h
    rw [ScatterFlags_dispatch_ge _ _ _ _ _ _ _ (lt_irrefl _),
      invokeByFlags_eq_guarded, invokeGuarded_writes]
  · intro h
    rw [ScatterFlags_dispatch_lt _ _ _ _ _ _ _ h,
      invokeByFlagsAndSize_eq_guarded, invokeGuarded_writes]
  · intro h; subst h
    rw [ScatterFlagsNop, ScatterFlags_dispatch_ge _ _ _ _ _ _ _ (lt_irrefl _),
      invokeByFlags_eq_guarded, invokeGuarded_writes]
  · intro h
    rw [ScatterFlagsNop, ScatterFlags_dispatch_lt _ _ _ _ _ _ _ h,
      invokeByFlagsAndSize_eq_guarded, invokeGuarded_writes]

theorem scatter_flags_written_iff_w :
    (ScatterFlags cfgW 0 (fun x : Nat => x + x) flagsW offsW 3 tileW).writes =
      tileW.writes ++ traceOf
        (fun l v => flagsW l v && decide (tileRank cfgW 0 l v < 3))
        (fun x : Nat => x + x) offsW tileW.data (pairsFrom cfgW 0 0) :=
  (scatter_flags_written_iff cfgW 0 (fun x : Nat => x + x) flagsW offsW 3
    tileW).2.1 (by decide)

/-- C7. Repeating a `Scatter` call with identical arguments (the
destination holding the first call's result) leaves the destination
unchanged from the single-call result, for collision-free offsets. -/
theorem scatter_repeat_noop {T : Type} (c : Cfg) (threadIdx_x : Nat)
    (Transform : T → T) (valid_flags : Nat → Nat → Bool)
    (scatter_offsets : Nat → Nat → Nat) (partial_tile_size : Nat)
    (data : Nat → Nat → T) (dest : Nat → T)
    (hinj : ∀ l1, l1 < c.LOADS_PER_TILE → ∀ v1, v1 < c.LOAD_VEC_SIZE →
      ∀ l2, l2 < c.LOADS_PER_TILE → ∀ v2, v2 < c.LOAD_VEC_SIZE →
      scatter_offsets l1 v1 = scatter_offsets l2 v2 → l1 = l2 ∧ v1 = v2) :
    ((Scatter c threadIdx_x Transform scatter_offsets partial_tile_size
      ⟨data, (Scatter c threadIdx_x Transform scatter_offsets partial_tile_size
        ⟨data, dest, []⟩).dest, []⟩).dest =
      (Scatter c threadIdx_x Transform scatter_offsets partial_tile_size
        ⟨data, dest, []⟩).dest)
    ∧ ((ScatterFlags c threadIdx_x Transform valid_flags scatter_offsets
        partial_tile_size
      ⟨data, (ScatterFlags c threadIdx_x Transform valid_flags scatter_offsets
        partial_tile_size ⟨data, dest, []⟩).dest, []⟩).dest =
      (ScatterFlags c threadIdx_x Transform valid_flags scatter_offsets
        partial_tile_size ⟨data, dest, []⟩).dest) := by
  constructor
  · by_cases hp : partial_tile_size < c.TILE_SIZE
    · simp only [Scatter_dispatch_lt _ _ _ _ _ _ hp, invokeBySize_eq_guarded,
        invokeGuarded_dest]
      exact applyWrites_idem _ _
    · simp only [Scatter_dispatch_ge _ _ _ _ _ _ hp, invokeUnguarded_eq_guarded,
        invokeGuarded_dest]
      exact applyWrites_idem _ _
  · by_cases hp : partial_tile_size < c.TILE_SIZE
    · simp only [ScatterFlags_dispatch_lt _ _ _ _ _ _ _ hp,
        invokeByFlagsAndSize_eq_guarded, invokeGuarded_dest]
      exact applyWrites_idem _ _
    · simp only [ScatterFlags_dispatch_ge _ _ _ _ _ _ _ hp,
        invokeByFlags_eq_guarded, invokeGuarded_dest]
      exact applyWrites_idem _ _

theorem scatter_repeat_noop_w :
    (Scatter cfgW 0 (fun x : Nat => x + x) offsW 3
      ⟨dataW, (Scatter cfgW 0 (fun x : Nat => x + x) offsW 3
        ⟨dataW, fun _ => 0, []⟩).dest, []⟩).dest =
      (Scatter cfgW 0 (fun x : Nat => x + x) offsW 3
        ⟨dataW, fun _ => 0, []⟩).dest :=
  (scatter_repeat_noop cfgW 0 (fun x : Nat => x + x) flagsW offsW 3 dataW
    (fun _ => 0) offsW_inj).1

/-- The spec's concrete scenario shape: 2 loads × 8 vector slots on 1
active lane, tile capacity 16. -/
def cfg16 : Cfg := ⟨1, 3, 1⟩

/-- Identity offsets / values by tile rank for `cfg16`: rank of `(l, v)`
is `8 * l + v`. -/
def idx16 : Nat → Nat → Nat := fun l v => 8 * l + v

/-- C8. Concrete scenario: tile capacity 16, a 32-cell zeroed destination,
identity offsets 0..15, values 0..15 by tile rank, no flags, identity
transform, `partial_tile_size = 10` — afterwards cells 0..9 hold 0..9 and
cells 10..31 still hold 0. -/
theorem scatter_concrete_scenario :
    ∀ i : Fin 32,
      (ScatterNop cfg16 0 idx16 10 ⟨idx16, fun _ => 0, []⟩).dest i =
        if (i : Nat) < 10 then (i : Nat) else 0 := by
  have hd : (ScatterNop cfg16 0 idx16 10 ⟨idx16, fun _ => 0, []⟩).dest =
      applyWrites
        (traceOf (fun l v => decide (tileRank cfg16 0 l v < 10)) NopTransform
          idx16 idx16 (pairsFrom cfg16 0 0)) (fun _ => 0) := by
    rw [ScatterNop, Scatter_dispatch_lt _ _ _ _ _ _ (by decide),
      invokeBySize_eq_guarded, invokeGuarded_dest]
  have hp : pairsFrom cfg16 0 0 =
      [(0, 0), (0, 1), (0, 2), (0, 3), (0, 4), (0, 5), (0, 6), (0, 7),
       (1, 0), (1, 1), (1, 2), (1, 3), (1, 4), (1, 5), (1, 6), (1, 7)] := by
    simp [pairsFrom, cfg16, Cfg.LOADS_PER_TILE, Cfg.LOAD_VEC_SIZE]
  rw [hd, hp]
  decide

/-- Two active lanes, one element each (capacity 2). -/
def cfg2L : Cfg := ⟨0, 0, 2⟩

/-- Both lanes aim at destination cell 5. -/
def off5 : Nat → Nat → Nat := fun _ _ => 5

/-- The store trace of one lane's full-tile no-flags call under `cfg2L`:
a single event targeting cell 5 with the lane's value. -/
theorem lane_writes_eval (d : Nat → Nat) (threadIdx_x x : Nat) :
    (Scatter cfg2L threadIdx_x NopTransform off5 2
      ⟨fun _ _ => x, d, []⟩).writes = [(5, x)] := by
  rw [Scatter_dispatch_ge _ _ _ _ _ _ (by decide),
    invokeUnguarded_eq_guarded, invokeGuarded_writes]
  have hp : pairsFrom cfg2L 0 0 = [(0, 0)] := by
    simp [pairsFrom, cfg2L, Cfg.LOADS_PER_TILE, Cfg.LOAD_VEC_SIZE]
  rw [hp]
  rfl

/-- C9. For any tile shape, any two lanes executing the same `Scatter`
call shape (each with its own lane-local data and offset arrays), and any
differing values `v1 ≠ v2`: if lane one issues a store of `v1` to
destination cell `a`, lane two issues a store of `v2` to the same cell,
and those two are the only values stored to that cell in this call, then
under every ordering of the issued stores (any interleaving — here any
permutation — of the two lanes' store traces) the destination cell
afterwards holds one of the two values; which one wins is not fixed. -/
theorem collision_value_membership {T : Type} (c : Cfg) (t1 t2 : Nat)
    (Transform : T → T) (offs1 offs2 : Nat → Nat → Nat)
    (data1 data2 : Nat → Nat → T) (partial_tile_size : Nat)
    (d : Nat → T) (a : Nat) (v1 v2 : T) (hne : v1 ≠ v2)
    (h1 : (a, v1) ∈
      (Scatter c t1 Transform offs1 partial_tile_size ⟨data1, d, []⟩).writes)
    (h2 : (a, v2) ∈
      (Scatter c t2 Transform offs2 partial_tile_size ⟨data2, d, []⟩).writes)
    (hall : ∀ w ∈
      (Scatter c t1 Transform offs1 partial_tile_size ⟨data1, d, []⟩).writes ++
        (Scatter c t2 Transform offs2 partial_tile_size ⟨data2, d, []⟩).writes,
      w.1 = a → w.2 = v1 ∨ w.2 = v2)
    (ws : List (Nat × T))
    (hperm : ws.Perm
      ((Scatter c t1 Transform offs1 partial_tile_size ⟨data1, d, []⟩).writes ++
        (Scatter c t2 Transform offs2 partial_tile_size ⟨data2, d, []⟩).writes)) :
    applyWrites ws d a = v1 ∨ applyWrites ws d a = v2 := by
  have hmem1 : (a, v1) ∈ ws :=
    hperm.mem_iff.mpr (List.mem_append.mpr (Or.inl h1))
  obtain ⟨u, hu⟩ := lastWrite_isSome_of_mem ws a v1 hmem1
  have humem : (a, u) ∈ ws := lastWrite_mem ws a u hu
  have hu12 : u = v1 ∨ u = v2 := hall (a, u) (hperm.mem_iff.mp humem) rfl
  rw [applyWrites_eq_lastWrite, hu]
  rcases hu12 with h | h
  · left; simp [h]
  · right; simp [h]

theorem collision_value_membership_w :
    applyWrites [(5, 7), (5, 3)] (fun _ => 0) 5 = 3 ∨
      applyWrites [(5, 7), (5, 3)] (fun _ => 0) 5 = 7 := by
  refine collision_value_membership cfg2L 0 1 NopTransform off5 off5
    (fun _ _ => 3) (fun _ _ => 7) 2 (fun _ => 0) 5 3 7 (by decide)
    ?_ ?_ ?_ [(5, 7), (5, 3)] ?_
  · rw [lane_writes_eval]; decide
  · rw [lane_writes_eval]; decide
  · rw [lane_writes_eval, lane_writes_eval]; decide
  · rw [lane_writes_eval, lane_writes_eval]; decide

end Gunrock
